import Mathlib

/-!
Verification of the Veracruz client TLS-relay transport and session layer
(`veracruz-client/src/veracruz_client.rs`) and the proxy attestation server
router (`proxy-attestation-server/src/server.rs`), as a shallow embedding.

Bytes are modelled as `List Nat`, Rust strings as Lean `String`.  External
crates (reqwest, mbedtls, webpki) are modelled as oracles: the HTTP relay
round-trip is a parameter giving the response body, and the TLS handshake
result (peer certificates) is a field of the client state.
-/

/-- A byte string. -/
abbrev Bytes := List Nat

/-! ### Helper functions standing for Rust standard/crate primitives -/

/-- ASCII whitespace test, standing for Rust `char::is_whitespace` (the relay
bodies are ASCII: decimal digits and base64). -/
def isWs (c : Char) : Bool :=
  c = ' ' || c = '\t' || c = '\n' || c = '\r'

/-- Accumulator-style splitter used by `splitWhitespace`. -/
def splitWsAux : List Char → List Char → List (List Char)
  | [], acc => if acc.isEmpty then [] else [acc.reverse]
  | c :: cs, acc =>
    if isWs c then
      if acc.isEmpty then splitWsAux cs [] else acc.reverse :: splitWsAux cs []
    else
      splitWsAux cs (c :: acc)

/-- Model of Rust `str::split_whitespace` collected into a vector: maximal
runs of non-whitespace characters, empty tokens dropped. -/
def splitWhitespace (s : String) : List String :=
  (splitWsAux s.data []).map fun l => String.mk l

/-- Decimal digit value of a character, if it is a digit. -/
def digitVal? (c : Char) : Option Nat :=
  if '0' ≤ c ∧ c ≤ '9' then some (c.toNat - '0'.toNat) else none

/-- Fold a digit list into a number, failing on a non-digit. -/
def digitsVal? : List Char → Nat → Option Nat
  | [], acc => some acc
  | c :: cs, acc =>
    match digitVal? c with
    | none => none
    | some d => digitsVal? cs (acc * 10 + d)

/-- Model of Rust `str::parse::<u32>`: an optional sign `+`, then at least one
decimal digit, with the value required to fit in 32 bits. -/
def parseU32? (s : String) : Option Nat :=
  let cs := match s.data with
    | '+' :: rest => rest
    | other => other
  if cs.isEmpty then none
  else match digitsVal? cs 0 with
    | none => none
    | some v => if v < 2 ^ 32 then some v else none

/-- Value of a base64 alphabet character. -/
def b64Val? (c : Char) : Option Nat :=
  if 'A' ≤ c ∧ c ≤ 'Z' then some (c.toNat - 'A'.toNat)
  else if 'a' ≤ c ∧ c ≤ 'z' then some (c.toNat - 'a'.toNat + 26)
  else if '0' ≤ c ∧ c ≤ '9' then some (c.toNat - '0'.toNat + 52)
  else if c = '+' then some 62
  else if c = '/' then some 63
  else none

/-- Decode base64 characters chunk by chunk (RFC 4648): full 4-character
groups give 3 bytes; a final group of 2 or 3 data characters (optionally
padded with `=`) gives 1 or 2 bytes. -/
def b64Chunks? : List Char → Option Bytes
  | [] => some []
  | [_] => none
  | [a, b] => do
    let va ← b64Val? a
    let vb ← b64Val? b
    some [va * 4 + vb / 16]
  | [a, b, c] => do
    let va ← b64Val? a
    let vb ← b64Val? b
    let vc ← b64Val? c
    some [va * 4 + vb / 16, (vb % 16) * 16 + vc / 4]
  | a :: b :: c :: d :: rest => do
    let va ← b64Val? a
    let vb ← b64Val? b
    if c = '=' then
      if d = '=' ∧ rest = [] then some [va * 4 + vb / 16] else none
    else do
      let vc ← b64Val? c
      if d = '=' then
        if rest = [] then some [va * 4 + vb / 16, (vb % 16) * 16 + vc / 4]
        else none
      else do
        let vd ← b64Val? d
        let tl ← b64Chunks? rest
        some ((va * 4 + vb / 16) :: ((vb % 16) * 16 + vc / 4) ::
              ((vc % 4) * 64 + vd) :: tl)

/-- Model of Rust `base64::decode`. -/
def base64Decode? (s : String) : Option Bytes :=
  b64Chunks? s.data

/-! ### The relay transport `InsecureConnection` -/

/-- State of the `InsecureConnection` struct: the buffered plaintext
`read_buffer` and the shared `remote_session_id` cell
(`Arc<Mutex<Option<u32>>>`). -/
structure ConnState where
  read_buffer : Bytes
  remote_session_id : Option Nat
deriving DecidableEq, Repr

namespace InsecureConnection

/-- Model of `impl Read for InsecureConnection::read`: copy as much of the
read buffer as fits into `data` (whose length is `len`), drop the copied
front of the buffer, and return the count.  The result is
(returned count, bytes delivered into `data`, new state). -/
def read (st : ConnState) (len : Nat) : Nat × Bytes × ConnState :=
  let n := min len st.read_buffer.length
  (n, st.read_buffer.take n, { st with read_buffer := st.read_buffer.drop n })

/-- Base64-decode each remaining body token and append it to the buffer, in
token order; stop with the error at the first token that fails to decode
(the tokens already decoded stay appended, as in the Rust loop). -/
def appendLoop (buf : Bytes) : List String → Except String Unit × Bytes
  | [] => (.ok (), buf)
  | item :: rest =>
    match base64Decode? item with
    | none => (.error "base64::decode", buf)
    | some bs => appendLoop (buf ++ bs) rest

/-- Model of `impl Write for InsecureConnection::write`.  The HTTP round
trip (reqwest POST of `"<session_id> <b64 data>"`) is abstracted by the
`body` argument: `.error e` for a failed round trip, `.ok b` for a 200
response with body `b`.  On a non-empty tokenized body the shared session id
is unconditionally overwritten with the parsed first token and each further
token is base64-decoded and appended to the read buffer; the call returns
the full length of `data`. -/
def write (st : ConnState) (data : Bytes) (body : Except String String) :
    Except String Nat × ConnState :=
  match body with
  | .error e => (.error e, st)
  | .ok b =>
    let items := splitWhitespace b
    match items with
    | [] => (.ok data.length, st)
    | first :: rest =>
      match parseU32? first with
      | none => (.error "bad session id", st)
      | some sid =>
        let st1 : ConnState := { st with remote_session_id := some sid }
        match appendLoop st1.read_buffer rest with
        | (.error e, buf) => (.error e, { st1 with read_buffer := buf })
        | (.ok _, buf) => (.ok data.length, { st1 with read_buffer := buf })

end InsecureConnection

/-! ### Message-level model of the Veracruz client session layer

The TLS engine and the HTTP relay are abstracted to a message-level oracle:
`ClientEnv.respond` gives, for each runtime-manager request, either the
parsed response or the transport / parse error that `VeracruzClient::send`
plus `transport_protocol::parse_runtime_manager_response` would surface.
The trace records every plaintext request written to the TLS channel, in
order. -/

/-- The three TEE platforms probed by `compare_runtime_hash`. -/
inductive Platform
  | Linux
  | Nitro
  | IceCap
deriving DecidableEq, Repr

/-- The slice of the `Policy` type used by the client code under study:
`runtime_manager_hash(&platform)` gives the hex-encoded runtime-manager
hash for a platform, or an error (modelled `none`) when the policy has no
entry for it. -/
structure Policy where
  runtime_manager_hash : Platform → Option String

/-- Modelled from the spec: the `transport_protocol` crate is not among the
sampled sources; per the spec the session protocol has exactly these request
variants (`RequestPolicyHash`, `SendProgram(path, bytes)`,
`SendData(path, bytes)`, `RequestCompute(path)`, `ReadFile(path)`,
`RequestShutdown`) and the encoding is total. -/
inductive RMRequest
  | requestPolicyHash
  | sendProgram (path : String) (program : Bytes)
  | sendData (path : String) (data : Bytes)
  | requestCompute (path : String)
  | readFile (path : String)
  | requestShutdown
deriving DecidableEq, Repr

/-- Modelled from the spec: response status of the runtime-manager protocol
(success, failure, or another code). -/
inductive ResponseStatus
  | SUCCESS
  | FAIL
  | code (n : Nat)
deriving DecidableEq, Repr

/-- Modelled from the spec: a parsed runtime-manager response, carrying a
status and the optional typed payloads read by the client
(`get_policy_hash().data`, `has_result()` / `get_result().data`). -/
structure RMResponse where
  status : ResponseStatus
  policy_hash : Bytes
  result : Option Bytes
deriving DecidableEq, Repr

/-- The `VeracruzClientError` variants reachable in the modelled code paths.
Transport and parse failures of the relay are collected in
`TransportError`. -/
inductive VCError
  | ResponseError (s : String) (st : ResponseStatus)
  | MismatchError (v : String) (expected : Bytes) (received : Bytes)
  | NoMatchingRuntimeIsolateHash
  | RuntimeHashExtensionMissingError
  | NoPeerCertificatesError
  | UnexpectedCertificateError
  | HexDecodeError
  | Utf8Error
  | VeracruzServerResponseNoResultError
  | InvalidLengthError (s : String) (n : Nat)
  | TLSUnspecifiedError
  | TLSInvalidCiphersuiteError (s : String)
  | X509ParserError (s : String)
  | TransportError (s : String)
deriving DecidableEq, Repr

/-- A peer certificate as seen after the handshake: its table of
unrecognized X.509 extensions, keyed by the 3-byte DER header and holding
the raw extension bytes (the webpki parsing itself is external). -/
structure PeerCert where
  ues : List (Bytes × Bytes)
deriving DecidableEq, Repr

/-- The client state used by the session-layer methods: the policy, the
locally computed policy hash, and the peer certificate list of the
established TLS context. -/
structure Client where
  policy : Policy
  policy_hash : String
  peer_certs : List PeerCert

/-- The environment of one client call: the outcome of the relay round trip
(write, HTTP POST, response read, response parse) for each request. -/
structure ClientEnv where
  respond : RMRequest → Except VCError RMResponse

/-- Observable events of one client call: each plaintext request written to
the TLS channel, in order. -/
inductive Event
  | sent (req : RMRequest)
deriving DecidableEq, Repr

/-- Is this request one of the data-plane messages (program bytes, data
bytes, compute request, read request)? -/
def isDataPlane : RMRequest → Bool
  | .sendProgram _ _ => true
  | .sendData _ _ => true
  | .requestCompute _ => true
  | .readFile _ => true
  | _ => false

/-- Bytes of a Rust `str` (`as_bytes().to_vec()`), one code point per byte
in this model. -/
def strBytes (s : String) : Bytes :=
  s.data.map Char.toNat

/-- Model of `std::str::from_utf8`: recover a string from bytes, failing on
a value outside the byte/scalar range of this model. -/
def bytesStr? (b : Bytes) : Option String :=
  if b.all fun n => n < 256 then some (String.mk (b.map Char.ofNat)) else none

/-- Hex value of one character, as in the `hex` crate. -/
def hexDigit? (c : Char) : Option Nat :=
  if '0' ≤ c ∧ c ≤ '9' then some (c.toNat - '0'.toNat)
  else if 'a' ≤ c ∧ c ≤ 'f' then some (c.toNat - 'a'.toNat + 10)
  else if 'A' ≤ c ∧ c ≤ 'F' then some (c.toNat - 'A'.toNat + 10)
  else none

/-- Decode a hex character list two digits at a time; odd length or a
non-hex character is an error. -/
def hexBytes? : List Char → Option Bytes
  | [] => some []
  | [_] => none
  | c1 :: c2 :: rest => do
    let h ← hexDigit? c1
    let l ← hexDigit? c2
    let tl ← hexBytes? rest
    some ((h * 16 + l) :: tl)

/-- Model of `hex::decode`. -/
def hexDecode (s : String) : Option Bytes :=
  hexBytes? s.data

namespace Client

/-- Model of `VeracruzClient::send`: write the serialized request to the
TLS context (recorded as a `sent` event) and return the relay round-trip
outcome.  Any transport failure surfaces only after the plaintext has been
handed to the TLS engine. -/
def send (env : ClientEnv) (req : RMRequest) :
    Except VCError RMResponse × List Event :=
  (env.respond req, [Event.sent req])

/-- Model of `VeracruzClient::check_policy_hash`: request the remote policy
hash; on a successful response compare it (as a UTF-8 string) with the
locally computed hash, and report a `MismatchError` with the local bytes as
`expected` and the remote bytes as `received` when they differ. -/
def check_policy_hash (env : ClientEnv) (c : Client) :
    Except VCError Unit × List Event :=
  let (r, tr) := send env .requestPolicyHash
  match r with
  | .error e => (.error e, tr)
  | .ok resp =>
    match resp.status with
    | .SUCCESS =>
      match bytesStr? resp.policy_hash with
      | none => (.error .Utf8Error, tr)
      | some received =>
        if c.policy_hash ≠ received then
          (.error (.MismatchError "check_policy_hash"
              (strBytes c.policy_hash) (strBytes received)), tr)
        else (.ok (), tr)
    | st => (.error (.ResponseError "check_policy_hash" st), tr)

/-- The platform list iterated by `compare_runtime_hash`. -/
def platforms : List Platform :=
  [.Linux, .Nitro, .IceCap]

/-- The loop body of `compare_runtime_hash`: for each platform in turn,
skip it if the policy has no hash for it, fail if its hash is not valid
hex, accept on a byte-for-byte match, otherwise try the next platform. -/
def compareLoop (pol : Policy) (received : Bytes) :
    List Platform → Except VCError Unit
  | [] => .error .NoMatchingRuntimeIsolateHash
  | p :: ps =>
    match pol.runtime_manager_hash p with
    | none => compareLoop pol received ps
    | some expected =>
      match hexDecode expected with
      | none => .error .HexDecodeError
      | some expected_bytes =>
        if received = expected_bytes then .ok ()
        else compareLoop pol received ps

/-- Model of `VeracruzClient::compare_runtime_hash`. -/
def compare_runtime_hash (c : Client) (received : Bytes) :
    Except VCError Unit :=
  compareLoop c.policy received platforms

end Client

/-- Modelled from the spec: `veracruz_utils::VERACRUZ_RUNTIME_HASH_EXTENSION_ID`
is not among the sampled sources; per the spec it is a fixed 4-component
OID arc shared by all enclaves. -/
def VERACRUZ_RUNTIME_HASH_EXTENSION_ID : List Nat :=
  [2, 5, 30, 1]

/-- The 3-byte DER header used as the extension lookup key: the first two
OID components collapse to one byte `40 * a + b`, the remaining two keep
their own byte. -/
def encodedExtensionId : Bytes :=
  [40 * VERACRUZ_RUNTIME_HASH_EXTENSION_ID[0]! + VERACRUZ_RUNTIME_HASH_EXTENSION_ID[1]!,
   VERACRUZ_RUNTIME_HASH_EXTENSION_ID[2]!,
   VERACRUZ_RUNTIME_HASH_EXTENSION_ID[3]!]

/-- Lookup in the unrecognized-extensions table (`ues.get(&key)`). -/
def lookupExt (ues : List (Bytes × Bytes)) (key : Bytes) : Option Bytes :=
  (ues.find? fun kv => kv.1 = key).map fun kv => kv.2

namespace Client

/-- Model of `VeracruzClient::check_runtime_hash`: require exactly one peer
certificate, look up the Veracruz runtime-hash extension by its 3-byte DER
key, fail with `RuntimeHashExtensionMissingError` when absent, and
otherwise compare its bytes against the policy hashes. -/
def check_runtime_hash (c : Client) : Except VCError Unit :=
  if c.peer_certs.length ≠ 1 then .error .NoPeerCertificatesError
  else
    match c.peer_certs.head? with
    | none => .error .UnexpectedCertificateError
    | some cert =>
      match lookupExt cert.ues encodedExtensionId with
      | none => .error .RuntimeHashExtensionMissingError
      | some data => compare_runtime_hash c data

end Client

/-- Modelled from the spec: `policy_utils::parsers::enforce_leading_backslash`
is not among the sampled sources; per the spec every path value is
normalized to begin with a single leading slash. -/
def enforce_leading_backslash (p : String) : String :=
  "/" ++ String.mk (p.data.dropWhile fun c => c = '/')

namespace Client

/-- Model of `VeracruzClient::send_program`: check the policy hash, check
the runtime hash, then serialize the program with its normalized path, send
it and require a `SUCCESS` status. -/
def send_program (env : ClientEnv) (c : Client) (path : String)
    (program : Bytes) : Except VCError Unit × List Event :=
  let (r1, t1) := check_policy_hash env c
  match r1 with
  | .error e => (.error e, t1)
  | .ok _ =>
    match check_runtime_hash c with
    | .error e => (.error e, t1)
    | .ok _ =>
      let path := enforce_leading_backslash path
      let (r2, t2) := send env (.sendProgram path program)
      match r2 with
      | .error e => (.error e, t1 ++ t2)
      | .ok resp =>
        match resp.status with
        | .SUCCESS => (.ok (), t1 ++ t2)
        | st => (.error (.ResponseError "send_program" st), t1 ++ t2)

/-- Model of `VeracruzClient::send_data`: check the policy hash, check the
runtime hash, then serialize the data with its normalized path, send it and
require a `SUCCESS` status. -/
def send_data (env : ClientEnv) (c : Client) (path : String)
    (data : Bytes) : Except VCError Unit × List Event :=
  let (r1, t1) := check_policy_hash env c
  match r1 with
  | .error e => (.error e, t1)
  | .ok _ =>
    match check_runtime_hash c with
    | .error e => (.error e, t1)
    | .ok _ =>
      let path := enforce_leading_backslash path
      let (r2, t2) := send env (.sendData path data)
      match r2 with
      | .error e => (.error e, t1 ++ t2)
      | .ok resp =>
        match resp.status with
        | .SUCCESS => (.ok (), t1 ++ t2)
        | st => (.error (.ResponseError "send_data" st), t1 ++ t2)

/-- Model of `VeracruzClient::request_compute`: after both checks, send the
compute request for the normalized path; require a `SUCCESS` status and a
present result payload. -/
def request_compute (env : ClientEnv) (c : Client) (path : String) :
    Except VCError Bytes × List Event :=
  let (r1, t1) := check_policy_hash env c
  match r1 with
  | .error e => (.error e, t1)
  | .ok _ =>
    match check_runtime_hash c with
    | .error e => (.error e, t1)
    | .ok _ =>
      let path := enforce_leading_backslash path
      let (r2, t2) := send env (.requestCompute path)
      match r2 with
      | .error e => (.error e, t1 ++ t2)
      | .ok resp =>
        if resp.status ≠ .SUCCESS then
          (.error (.ResponseError "request_compute" resp.status), t1 ++ t2)
        else
          match resp.result with
          | none => (.error .VeracruzServerResponseNoResultError, t1 ++ t2)
          | some data => (.ok data, t1 ++ t2)

/-- Model of `VeracruzClient::get_results`: after both checks, send the
read-file request for the normalized path; require a `SUCCESS` status and a
present result payload. -/
def get_results (env : ClientEnv) (c : Client) (path : String) :
    Except VCError Bytes × List Event :=
  let (r1, t1) := check_policy_hash env c
  match r1 with
  | .error e => (.error e, t1)
  | .ok _ =>
    match check_runtime_hash c with
    | .error e => (.error e, t1)
    | .ok _ =>
      let path := enforce_leading_backslash path
      let (r2, t2) := send env (.readFile path)
      match r2 with
      | .error e => (.error e, t1 ++ t2)
      | .ok resp =>
        if resp.status ≠ .SUCCESS then
          (.error (.ResponseError "get_result" resp.status), t1 ++ t2)
        else
          match resp.result with
          | none => (.error .VeracruzServerResponseNoResultError, t1 ++ t2)
          | some data => (.ok data, t1 ++ t2)

/-- Model of `VeracruzClient::request_shutdown`: serialize and send the
shutdown request, propagating any error of the round trip with `?`, and
discard the response value. -/
def request_shutdown (env : ClientEnv) (_c : Client) :
    Except VCError Unit × List Event :=
  let (r, tr) := send env .requestShutdown
  match r with
  | .error e => (.error e, tr)
  | .ok _ => (.ok (), tr)

end Client

/-- A data-plane operation together with its arguments. -/
inductive DataOp
  | progOp (path : String) (program : Bytes)
  | dataOp (path : String) (data : Bytes)
  | computeOp (path : String)
  | resultsOp (path : String)
deriving DecidableEq, Repr

/-- Dispatch a data-plane operation to the corresponding client method,
erasing the distinction between unit results and byte results. -/
def runDataOp (env : ClientEnv) (c : Client) :
    DataOp → Except VCError (Option Bytes) × List Event
  | .progOp path program =>
    let (r, tr) := Client.send_program env c path program
    (r.map fun _ => none, tr)
  | .dataOp path data =>
    let (r, tr) := Client.send_data env c path data
    (r.map fun _ => none, tr)
  | .computeOp path =>
    let (r, tr) := Client.request_compute env c path
    (r.map fun b => some b, tr)
  | .resultsOp path =>
    let (r, tr) := Client.get_results env c path
    (r.map fun b => some b, tr)

/-- The wire request each data-plane operation produces when both checks
pass. -/
def DataOp.request : DataOp → RMRequest
  | .progOp path program => .sendProgram (enforce_leading_backslash path) program
  | .dataOp path data => .sendData (enforce_leading_backslash path) data
  | .computeOp path => .requestCompute (enforce_leading_backslash path)
  | .resultsOp path => .readFile (enforce_leading_backslash path)

/-! ### Client construction -/

/-- Model of `VeracruzClient::read_cert`, parameterized by the outcome of
`mbedtls::x509::Certificate::from_pem_multiple` on the file contents (the
file read and PEM parsing are external): a parse failure maps to
`TLSUnspecifiedError`, and a parsed list is returned only when it holds
exactly one certificate, any other count giving
`InvalidLengthError("cert_vec", 1)`. -/
def read_cert (parsed : Except Unit (List Bytes)) :
    Except VCError (List Bytes) :=
  match parsed with
  | .error _ => .error .TLSUnspecifiedError
  | .ok cert_vec =>
    if cert_vec.length = 1 then .ok cert_vec
    else .error (.InvalidLengthError "cert_vec" 1)

/-- Outcomes of the external steps performed by
`VeracruzClient::with_policy_and_hash`: certificate PEM parsing, private
key parsing, certificate validity check, proxy-service certificate
parsing, ciphersuite lookup, and TLS establishment. -/
structure ConstructEnv where
  client_cert_pem : Except Unit (List Bytes)
  private_key : Except VCError Unit
  cert_validity : Except VCError Unit
  proxy_service_cert : Except Unit Unit
  ciphersuite : Option Nat
  establish : Except VCError Unit

/-- A constructed client: its session state and the initial relay
connection state handed to `mbedtls::ssl::Context::establish`. -/
structure ConstructedClient where
  conn : ConnState
  client : Client

/-- Model of `VeracruzClient::with_policy_and_hash`: read the client
certificate (failing as `read_cert` does), read the private key, check the
certificate validity, parse the proxy service certificate, resolve the
ciphersuite, then create the connection with an empty read buffer and the
shared session id initialized to `Some(0)`, and establish the TLS
context. -/
def with_policy_and_hash (env : ConstructEnv) (policy : Policy)
    (policy_hash : String) (peer_certs : List PeerCert) :
    Except VCError ConstructedClient :=
  match read_cert env.client_cert_pem with
  | .error e => .error e
  | .ok _ =>
    match env.private_key with
    | .error e => .error e
    | .ok _ =>
      match env.cert_validity with
      | .error e => .error e
      | .ok _ =>
        match env.proxy_service_cert with
        | .error _ =>
          .error (.X509ParserError "mbedtls::x509::Certificate::from_pem_multiple")
        | .ok _ =>
          match env.ciphersuite with
          | none => .error (.TLSInvalidCiphersuiteError "unknown")
          | some _ =>
            let conn : ConnState :=
              { read_buffer := [], remote_session_id := some 0 }
            match env.establish with
            | .error e => .error e
            | .ok _ =>
              .ok { conn := conn,
                    client := { policy := policy, policy_hash := policy_hash,
                                peer_certs := peer_certs } }

/-! ### Proxy attestation server -/

/-- The cargo feature set a proxy-attestation-server binary is built
with. -/
structure Features where
  linux : Bool
  icecap : Bool
  nitro : Bool

/-- Errors of the proxy attestation server surface as in
`ProxyAttestationServerError`. -/
inductive PASError
  | UnsupportedRequestError
  | UnimplementedRequestError
  | HandlerError (s : String)
deriving DecidableEq, Repr

/-- Modelled from the spec: the bodies of `attestation::start`,
`psa::attestation_token` and `nitro::attestation_token` are not among the
sampled sources; per the spec the debug flag only affects logging, so each
handler is a function of the request body alone. -/
structure Handlers where
  start : String → Except PASError String
  psa_attestation_token : String → Except PASError String
  nitro_attestation_token : String → Except PASError String

/-- Model of `psa_router`: with the `linux` or `icecap` feature, dispatch
`AttestationToken` to the PSA handler and answer `UnsupportedRequestError`
otherwise; without those features answer `UnimplementedRequestError`. -/
def psa_router (f : Features) (h : Handlers) (psa_request : String)
    (input_data : String) : Except PASError String :=
  if f.linux || f.icecap then
    if psa_request = "AttestationToken" then h.psa_attestation_token input_data
    else .error .UnsupportedRequestError
  else .error .UnimplementedRequestError

/-- Model of `nitro_router`: with the `nitro` feature, dispatch
`AttestationToken` to the Nitro handler and answer
`UnsupportedRequestError` otherwise; without it answer
`UnimplementedRequestError`. -/
def nitro_router (f : Features) (h : Handlers) (nitro_request : String)
    (input_data : String) : Except PASError String :=
  if f.nitro then
    if nitro_request = "AttestationToken" then h.nitro_attestation_token input_data
    else .error .UnsupportedRequestError
  else .error .UnimplementedRequestError

/-- An HTTP request reaching one of the three routes installed by
`server`. -/
inductive PASRequest
  | start (body : String)
  | psa (op : String) (body : String)
  | nitro (op : String) (body : String)
deriving DecidableEq, Repr

/-- The process-wide state set up by `server`: the `DEBUG_MODE` atomic,
stored from the `debug` argument (the store only happens when `debug` is
true, the atomic being initialized to false). -/
structure ServerState where
  debug_mode : Bool

/-- Model of the startup part of `server`: set `DEBUG_MODE` when asked. -/
def server_start (debug : Bool) : ServerState :=
  { debug_mode := if debug then true else false }

/-- Route an HTTP request as the `App` built in `server` does.  The server
state is passed as the handlers would see it; none of the route bodies
reads `debug_mode`, whose only use is logging. -/
def serverRespond (_st : ServerState) (f : Features) (h : Handlers) :
    PASRequest → Except PASError String
  | .start body => h.start body
  | .psa op body => psa_router f h op body
  | .nitro op body => nitro_router f h op body

/-! ### Auxiliary definitions for the statements -/

/-- Decode a list of body tokens, failing if any token fails. -/
def decodeAll? : List String → Option (List Bytes)
  | [] => some []
  | s :: ss =>
    match base64Decode? s, decodeAll? ss with
    | some b, some bs => some (b :: bs)
    | _, _ => none

/-- The path carried by a request, when it has one. -/
def pathOf : RMRequest → Option String
  | .sendProgram path _ => some path
  | .sendData path _ => some path
  | .requestCompute path => some path
  | .readFile path => some path
  | _ => none

/-- Did this event write data-plane bytes to the TLS channel? -/
def sentDataPlane : Event → Bool
  | .sent req => isDataPlane req

/-- Number of leading slash characters of a string. -/
def leadingSlashes (s : String) : Nat :=
  (s.data.takeWhile fun c => c = '/').length

/-- An environment in which every relay round trip fails. -/
def envFail : ClientEnv :=
  { respond := fun _ => .error (.TransportError "reqwest send") }

/-- A minimal client state. -/
def cEmpty : Client :=
  { policy := { runtime_manager_hash := fun _ => none },
    policy_hash := "",
    peer_certs := [] }

/-- A client whose policy lists the Linux runtime hash `"ab"` (bytes
`[0xab]`), whose locally computed policy hash is `"ab"`, and whose peer
certificate carries the runtime-hash extension with bytes `[0xab]`. -/
def cHappy : Client :=
  { policy := { runtime_manager_hash := fun p =>
      match p with
      | .Linux => some "ab"
      | _ => none },
    policy_hash := "ab",
    peer_certs := [{ ues := [(encodedExtensionId, [171])] }] }

/-- An environment whose policy-hash probe answers success with hash
`"ab"` and which accepts every data-plane request. -/
def envHappy : ClientEnv :=
  { respond := fun req =>
      match req with
      | .requestPolicyHash =>
        .ok { status := .SUCCESS, policy_hash := [97, 98], result := none }
      | _ => .ok { status := .SUCCESS, policy_hash := [], result := some [7] } }

/-- An environment whose policy-hash probe answers success with hash
`"cd"`, differing from `cHappy`'s local hash `"ab"`. -/
def envMismatch : ClientEnv :=
  { respond := fun req =>
      match req with
      | .requestPolicyHash =>
        .ok { status := .SUCCESS, policy_hash := [99, 100], result := none }
      | _ => .ok { status := .SUCCESS, policy_hash := [], result := some [7] } }

/-- A construction environment in which every external step succeeds and
the certificate PEM holds exactly one certificate. -/
def cenvOk : ConstructEnv :=
  { client_cert_pem := .ok [[0]],
    private_key := .ok (),
    cert_validity := .ok (),
    proxy_service_cert := .ok (),
    ciphersuite := some 5,
    establish := .ok () }

/-- A construction environment whose certificate PEM parses to an empty
certificate list. -/
def cenvNoCert : ConstructEnv :=
  { client_cert_pem := .ok [],
    private_key := .ok (),
    cert_validity := .ok (),
    proxy_service_cert := .ok (),
    ciphersuite := some 5,
    establish := .ok () }

/-- The client produced by `with_policy_and_hash` under `cenvOk` with an
empty policy. -/
def ccOk : ConstructedClient :=
  { conn := { read_buffer := [], remote_session_id := some 0 },
    client := { policy := { runtime_manager_hash := fun _ => none },
                policy_hash := "h",
                peer_certs := [] } }

/-! ### Helper lemmas -/

theorem toNat_ofNat_of_lt {n : Nat} (h : n < 256) : (Char.ofNat n).toNat = n := by
  have hv : n.isValidChar := Or.inl (by omega)
  rw [Char.ofNat, dif_pos hv]
  simp [Char.ofNatAux, Char.toNat, UInt32.toNat]

theorem map_toNat_ofNat (b : Bytes) (hall : ∀ x ∈ b, x < 256) :
    (b.map Char.ofNat).map Char.toNat = b := by
  induction b with
  | nil => rfl
  | cons x xs ih =>
    simp only [List.map_cons, List.cons.injEq]
    exact ⟨toNat_ofNat_of_lt (hall x (by simp)),
           ih fun y hy => hall y (by simp [hy])⟩

theorem bytesStr_roundtrip (b : Bytes) (s : String) (h : bytesStr? b = some s) :
    strBytes s = b := by
  unfold bytesStr? at h
  split at h
  case isTrue hall =>
    cases h
    unfold strBytes
    show (b.map Char.ofNat).map Char.toNat = b
    apply map_toNat_ofNat
    intro x hx
    have := List.all_eq_true.mp hall x hx
    exact of_decide_eq_true this
  case isFalse => cases h

theorem check_policy_hash_trace (env : ClientEnv) (c : Client) :
    (Client.check_policy_hash env c).2 = [Event.sent RMRequest.requestPolicyHash] := by
  unfold Client.check_policy_hash Client.send
  cases h : env.respond RMRequest.requestPolicyHash with
  | error e => simp [h]
  | ok resp =>
    simp only [h]
    cases hs : resp.status
    · cases hb : bytesStr? resp.policy_hash
      · simp [hb]
      · dsimp only
        split <;> rfl
    · rfl
    · rfl

theorem runDataOp_policy_error (env : ClientEnv) (c : Client) (op : DataOp)
    (e : VCError) (h : (Client.check_policy_hash env c).1 = .error e) :
    runDataOp env c op = (.error e, [Event.sent RMRequest.requestPolicyHash]) := by
  have ht := check_policy_hash_trace env c
  rcases hcp : Client.check_policy_hash env c with ⟨r1, t1⟩
  rw [hcp] at h ht
  dsimp only at h ht
  subst h
  subst ht
  cases op <;>
    simp [runDataOp, Client.send_program, Client.send_data,
      Client.request_compute, Client.get_results, Except.map, hcp]

theorem runDataOp_runtime_error (env : ClientEnv) (c : Client) (op : DataOp)
    (e : VCError) (h1 : (Client.check_policy_hash env c).1 = .ok ())
    (h2 : Client.check_runtime_hash c = .error e) :
    runDataOp env c op = (.error e, [Event.sent RMRequest.requestPolicyHash]) := by
  have ht := check_policy_hash_trace env c
  rcases hcp : Client.check_policy_hash env c with ⟨r1, t1⟩
  rw [hcp] at h1 ht
  dsimp only at h1 ht
  subst h1
  subst ht
  cases op <;>
    simp [runDataOp, Client.send_program, Client.send_data,
      Client.request_compute, Client.get_results, Except.map, hcp, h2]

theorem runDataOp_checks_ok_trace (env : ClientEnv) (c : Client) (op : DataOp)
    (h1 : (Client.check_policy_hash env c).1 = .ok ())
    (h2 : Client.check_runtime_hash c = .ok ()) :
    (runDataOp env c op).2 =
      [Event.sent RMRequest.requestPolicyHash, Event.sent op.request] := by
  have ht := check_policy_hash_trace env c
  rcases hcp : Client.check_policy_hash env c with ⟨r1, t1⟩
  rw [hcp] at h1 ht
  dsimp only at h1 ht
  subst h1
  subst ht
  cases op <;>
    · simp only [runDataOp, Client.send_program, Client.send_data,
        Client.request_compute, Client.get_results, Client.send, hcp, h2,
        DataOp.request]
      repeat' split
      all_goals rfl

theorem appendLoop_ok (rest : List String) (bss : List Bytes)
    (h : decodeAll? rest = some bss) (buf : Bytes) :
    InsecureConnection.appendLoop buf rest = (.ok (), buf ++ bss.flatten) := by
  induction rest generalizing bss buf with
  | nil =>
    unfold decodeAll? at h
    cases h
    simp [InsecureConnection.appendLoop]
  | cons s ss ih =>
    unfold decodeAll? at h
    rcases hb : base64Decode? s with _ | b <;> rw [hb] at h
    · cases h
    · rcases hd : decodeAll? ss with _ | bs <;> rw [hd] at h
      · cases h
      · cases h
        unfold InsecureConnection.appendLoop
        rw [hb]
        dsimp only
        rw [ih bs hd (buf ++ b)]
        simp

theorem compareLoop_ok_iff (pol : Policy) (received : Bytes) (ps : List Platform)
    (hhex : ∀ p ∈ ps, ∀ s, pol.runtime_manager_hash p = some s →
      (hexDecode s).isSome) :
    (Client.compareLoop pol received ps = .ok () ↔
      ∃ p ∈ ps, ∃ s b, pol.runtime_manager_hash p = some s ∧
        hexDecode s = some b ∧ received = b) := by
  induction ps with
  | nil => simp [Client.compareLoop]
  | cons p ps ih =>
    have ih' := ih fun q hq s hs => hhex q (List.mem_cons_of_mem _ hq) s hs
    unfold Client.compareLoop
    rcases hm : pol.runtime_manager_hash p with _ | s
    · rw [ih']
      constructor
      · rintro ⟨q, hq, rest⟩
        exact ⟨q, List.mem_cons_of_mem _ hq, rest⟩
      · rintro ⟨q, hq, s, b, hqs, hdec, hrb⟩
        rcases List.mem_cons.mp hq with h | h
        · subst h
          rw [hm] at hqs
          cases hqs
        · exact ⟨q, h, s, b, hqs, hdec, hrb⟩
    · rcases hdec : hexDecode s with _ | b
      · have hs := hhex p (List.mem_cons_self _ _) s hm
        rw [hdec] at hs
        simp at hs
      · dsimp only
        rw [hdec]
        dsimp only
        by_cases hr : received = b
        · rw [if_pos hr]
          constructor
          · intro _
            exact ⟨p, List.mem_cons_self _ _, s, b, hm, hdec, hr⟩
          · intro _
            rfl
        · rw [if_neg hr, ih']
          constructor
          · rintro ⟨q, hq, rest⟩
            exact ⟨q, List.mem_cons_of_mem _ hq, rest⟩
          · rintro ⟨q, hq, s', b', hqs, hdec', hrb⟩
            rcases List.mem_cons.mp hq with h | h
            · subst h
              rw [hm] at hqs
              cases hqs
              rw [hdec] at hdec'
              cases hdec'
              exact absurd hrb hr
            · exact ⟨q, h, s', b', hqs, hdec', hrb⟩

theorem compareLoop_no_match (pol : Policy) (received : Bytes) (ps : List Platform)
    (hhex : ∀ p ∈ ps, ∀ s, pol.runtime_manager_hash p = some s →
      (hexDecode s).isSome)
    (hnone : ∀ p ∈ ps, ∀ s b, pol.runtime_manager_hash p = some s →
      hexDecode s = some b → received ≠ b) :
    Client.compareLoop pol received ps = .error .NoMatchingRuntimeIsolateHash := by
  induction ps with
  | nil => rfl
  | cons p ps ih =>
    have ih' := ih (fun q hq s hs => hhex q (List.mem_cons_of_mem _ hq) s hs)
      (fun q hq s b hs hb => hnone q (List.mem_cons_of_mem _ hq) s b hs hb)
    unfold Client.compareLoop
    rcases hm : pol.runtime_manager_hash p with _ | s
    · exact ih'
    · rcases hdec : hexDecode s with _ | b
      · have hs := hhex p (List.mem_cons_self _ _) s hm
        rw [hdec] at hs
        simp at hs
      · dsimp only
        rw [hdec]
        dsimp only
        rw [if_neg (hnone p (List.mem_cons_self _ _) s b hm hdec)]
        exact ih'

theorem check_policy_hash_mismatch (env : ClientEnv) (c : Client)
    (resp : RMResponse) (received : String)
    (hresp : env.respond .requestPolicyHash = .ok resp)
    (hstatus : resp.status = .SUCCESS)
    (hdec : bytesStr? resp.policy_hash = some received)
    (hne : c.policy_hash ≠ received) :
    Client.check_policy_hash env c =
      (.error (.MismatchError "check_policy_hash" (strBytes c.policy_hash)
        (strBytes received)), [Event.sent RMRequest.requestPolicyHash]) := by
  unfold Client.check_policy_hash Client.send
  rw [hresp]
  dsimp only
  rw [hstatus]
  dsimp only
  rw [hdec]
  dsimp only
  rw [if_pos hne]

/-! ### Claims -/

/-- Claim C7: every relay `read(buf)` delivers exactly
`min(len(buf), len(read_buffer))` bytes, they are the oldest bytes of the
read buffer in FIFO order (delivered ++ remaining = original buffer),
exactly that prefix is removed, that count is returned, and a zero-length
read returns 0 leaving the state unchanged. -/
theorem C7_conn_read_fifo (st : ConnState) (len : Nat) :
    (InsecureConnection.read st len).1 = min len st.read_buffer.length ∧
    (InsecureConnection.read st len).2.1 ++
      (InsecureConnection.read st len).2.2.read_buffer = st.read_buffer ∧
    (InsecureConnection.read st len).2.1.length =
      (InsecureConnection.read st len).1 ∧
    (InsecureConnection.read st len).2.2.remote_session_id =
      st.remote_session_id ∧
    (len = 0 → InsecureConnection.read st len = (0, [], st)) := by
  refine ⟨rfl, ?_, ?_, rfl, ?_⟩
  · exact List.take_append_drop _ _
  · simp [InsecureConnection.read]
  · intro h
    subst h
    simp [InsecureConnection.read]

/-- Witness for C7 at a concrete state and a zero-length read. -/
theorem C7_conn_read_fifo_witness :
    InsecureConnection.read ⟨[1, 2, 3], some 5⟩ 0 = (0, [], ⟨[1, 2, 3], some 5⟩) :=
  (C7_conn_read_fifo ⟨[1, 2, 3], some 5⟩ 0).2.2.2.2 rfl

/-- Claim C9: the proxy attestation server's debug flag does not influence
protocol output: for every request to the `/Start`, `/PSA/{op}` or
`/Nitro/{op}` routes, the response is the same whether the server was
started with `debug = true` or `debug = false`. -/
theorem C9_debug_no_protocol_effect (f : Features) (h : Handlers)
    (req : PASRequest) :
    serverRespond (server_start true) f h req =
      serverRespond (server_start false) f h req := rfl

/-- Claim C5 counterexample: with a relay whose round trip fails, the
shutdown record is written to the TLS engine (the trace holds the sent
request) and yet `request_shutdown` returns the transport error instead of
`Ok`. -/
theorem C5_counterexample :
    (Client.request_shutdown envFail cEmpty).2 =
      [Event.sent RMRequest.requestShutdown] ∧
    (Client.request_shutdown envFail cEmpty).1 =
      .error (.TransportError "reqwest send") :=
  ⟨rfl, rfl⟩

/-- Claim C5 as amended: `request_shutdown` always writes the shutdown
record to the TLS engine and ignores the content of the relay's response,
but it propagates transport errors: it returns `Ok` precisely when the
relay round trip for the shutdown record succeeds. -/
theorem C5_amended_shutdown (env : ClientEnv) (c : Client) :
    (Client.request_shutdown env c).2 = [Event.sent RMRequest.requestShutdown] ∧
    ((Client.request_shutdown env c).1 = .ok () ↔
      ∃ resp, env.respond RMRequest.requestShutdown = .ok resp) := by
  unfold Client.request_shutdown Client.send
  cases h : env.respond RMRequest.requestShutdown with
  | error e => simp [h]
  | ok resp => simp [h]

/-- Claim C4 counterexample: from a context whose session id is already
assigned (7), a relay response carrying the different session id 9 is
accepted (`write` returns Ok) and the shared session id silently becomes 9:
the id does change after assignment and the mismatch is not treated as a
protocol error. -/
theorem C4_counterexample :
    (InsecureConnection.write ⟨[], some 7⟩ [1] (.ok "9")).1 = .ok 1 ∧
    (InsecureConnection.write ⟨[], some 7⟩ [1] (.ok "9")).2.remote_session_id
      = some 9 :=
  ⟨rfl, rfl⟩

/-- Claim C4 as amended: the shared session id starts as `Some 0` at
construction; an empty relay response body leaves the state unchanged; and
every relay response whose body tokenizes non-empty and whose first token
parses as a `u32` unconditionally overwrites the session id with that
value, whatever was assigned before — no mismatch check is performed. -/
theorem C4_amended_session_id (cenv : ConstructEnv) (policy : Policy)
    (ph : String) (pcs : List PeerCert) (cc : ConstructedClient)
    (st : ConnState) (data : Bytes) (body first : String) (rest : List String)
    (sid : Nat)
    (hok : with_policy_and_hash cenv policy ph pcs = .ok cc)
    (hsplit : splitWhitespace body = first :: rest)
    (hparse : parseU32? first = some sid) :
    cc.conn.remote_session_id = some 0 ∧
    (InsecureConnection.write st data (.ok body)).2.remote_session_id
      = some sid ∧
    (InsecureConnection.write st data (.ok "")).2 = st := by
  refine ⟨?_, ?_, rfl⟩
  · unfold with_policy_and_hash at hok
    repeat' split at hok
    all_goals simp_all
    subst hok
    rfl
  · unfold InsecureConnection.write
    dsimp only
    rw [hsplit]
    dsimp only
    rw [hparse]
    dsimp only
    rcases ha : InsecureConnection.appendLoop st.read_buffer rest with ⟨r, buf⟩
    cases r <;> rfl

/-- Witness for the amended C4 at concrete inputs: a successfully
constructed client starts with session id 0, a response body carrying id 9
overwrites an assigned id 7, and an empty body changes nothing. -/
theorem C4_amended_session_id_witness :
    ccOk.conn.remote_session_id = some 0 ∧
    (InsecureConnection.write ⟨[], some 7⟩ [1] (.ok "9 AQID")).2.remote_session_id
      = some 9 ∧
    (InsecureConnection.write ⟨[], some 7⟩ [1] (.ok "")).2 = ⟨[], some 7⟩ :=
  C4_amended_session_id cenvOk { runtime_manager_hash := fun _ => none } "h" []
    ccOk ⟨[], some 7⟩ [1] "9 AQID" "9" ["AQID"] 9 rfl (by decide) (by decide)

/-- Claim C6: a relay `write(data)` with an empty response body leaves the
state unchanged and returns `len(data)`; with a body whose first token
parses as the new session id and whose remaining tokens all base64-decode,
it sets the session id, appends the decoded tokens to the read buffer in
token order, and returns `len(data)`. -/
theorem C6_relay_write (st : ConnState) (data : Bytes) (body first : String)
    (rest : List String) (sid : Nat) (bss : List Bytes)
    (hsplit : splitWhitespace body = first :: rest)
    (hparse : parseU32? first = some sid)
    (hdec : decodeAll? rest = some bss) :
    InsecureConnection.write st data (.ok "") = (.ok data.length, st) ∧
    InsecureConnection.write st data (.ok body) =
      (.ok data.length,
        { read_buffer := st.read_buffer ++ bss.flatten,
          remote_session_id := some sid }) := by
  constructor
  · rfl
  · unfold InsecureConnection.write
    dsimp only
    rw [hsplit]
    dsimp only
    rw [hparse]
    dsimp only
    rw [appendLoop_ok rest bss hdec st.read_buffer]

/-- Witness for C6 at concrete inputs. -/
theorem C6_relay_write_witness :
    InsecureConnection.write ⟨[9], some 0⟩ [1, 2] (.ok "7 AQID") =
      (.ok 2, { read_buffer := [9, 1, 2, 3], remote_session_id := some 7 }) :=
  (C6_relay_write ⟨[9], some 0⟩ [1, 2] "7 AQID" "7" ["AQID"] 7 [[1, 2, 3]]
    (by decide) (by decide) (by decide)).2

theorem takeWhile_dropWhile_self (q : Char → Bool) (l : List Char) :
    (l.dropWhile q).takeWhile q = [] := by
  induction l with
  | nil => rfl
  | cons c cs ih =>
    by_cases h : q c
    · simpa [List.dropWhile, h] using ih
    · simp [List.dropWhile, List.takeWhile, h]

theorem leadingSlashes_enforce (p : String) :
    leadingSlashes (enforce_leading_backslash p) = 1 := by
  unfold leadingSlashes enforce_leading_backslash
  rw [String.data_append]
  show (('/' :: p.data.dropWhile fun c => c = '/').takeWhile fun c => c = '/').length = 1
  rw [List.takeWhile_cons]
  simp [takeWhile_dropWhile_self]

/-- Claim C1: for every data-plane operation, if it returns success then
`check_policy_hash` and `check_runtime_hash` both succeeded in that call
and the only messages written to the TLS channel were the policy-hash probe
followed by the single data-plane request; if either check fails, the
operation returns exactly that error and no data-plane message is written
at all. -/
theorem C1_checks_precede_data_plane (env : ClientEnv) (c : Client)
    (op : DataOp) :
    ((∃ v, (runDataOp env c op).1 = .ok v) →
      (Client.check_policy_hash env c).1 = .ok () ∧
      Client.check_runtime_hash c = .ok () ∧
      (runDataOp env c op).2 =
        [Event.sent RMRequest.requestPolicyHash, Event.sent op.request]) ∧
    (∀ e, (Client.check_policy_hash env c).1 = .error e →
      (runDataOp env c op).1 = .error e ∧
      ∀ ev ∈ (runDataOp env c op).2, sentDataPlane ev = false) ∧
    (∀ e, (Client.check_policy_hash env c).1 = .ok () →
      Client.check_runtime_hash c = .error e →
      (runDataOp env c op).1 = .error e ∧
      ∀ ev ∈ (runDataOp env c op).2, sentDataPlane ev = false) := by
  refine ⟨?_, ?_, ?_⟩
  · rintro ⟨v, hv⟩
    rcases hcp : (Client.check_policy_hash env c).1 with e | u
    · rw [runDataOp_policy_error env c op e hcp] at hv
      simp at hv
    · cases u
      rcases hrt : Client.check_runtime_hash c with e | u2
      · rw [runDataOp_runtime_error env c op e hcp hrt] at hv
        simp at hv
      · cases u2
        exact ⟨rfl, rfl, runDataOp_checks_ok_trace env c op hcp hrt⟩
  · intro e h
    rw [runDataOp_policy_error env c op e h]
    refine ⟨rfl, ?_⟩
    intro ev hev
    simp only [List.mem_singleton] at hev
    subst hev
    rfl
  · intro e h1 h2
    rw [runDataOp_runtime_error env c op e h1 h2]
    refine ⟨rfl, ?_⟩
    intro ev hev
    simp only [List.mem_singleton] at hev
    subst hev
    rfl

/-- Witness for C1: a fully successful `send_data` call on concrete
environment and client. -/
theorem C1_checks_precede_data_plane_witness :
    (Client.check_policy_hash envHappy cHappy).1 = .ok () ∧
    Client.check_runtime_hash cHappy = .ok () ∧
    (runDataOp envHappy cHappy (.dataOp "d" [1])).2 =
      [Event.sent RMRequest.requestPolicyHash,
       Event.sent (RMRequest.sendData "/d" [1])] :=
  (C1_checks_precede_data_plane envHappy cHappy (.dataOp "d" [1])).1 ⟨none, rfl⟩

/-- Claim C2: given one parseable peer certificate and hex-decodable policy
hashes, `check_runtime_hash` accepts iff the runtime-hash extension bytes
equal the hex-decoded runtime-manager hash of at least one platform present
in the policy; a missing extension gives
`RuntimeHashExtensionMissingError`, and a present extension matching no
platform gives `NoMatchingRuntimeIsolateHash`. -/
theorem C2_runtime_hash_verifier (c : Client) (cert : PeerCert)
    (hcerts : c.peer_certs = [cert])
    (hhex : ∀ p s, c.policy.runtime_manager_hash p = some s →
      (hexDecode s).isSome) :
    (lookupExt cert.ues encodedExtensionId = none →
      Client.check_runtime_hash c = .error .RuntimeHashExtensionMissingError) ∧
    (∀ ext, lookupExt cert.ues encodedExtensionId = some ext →
      ((Client.check_runtime_hash c = .ok ()) ↔
        ∃ p s b, c.policy.runtime_manager_hash p = some s ∧
          hexDecode s = some b ∧ ext = b) ∧
      ((¬ ∃ p s b, c.policy.runtime_manager_hash p = some s ∧
          hexDecode s = some b ∧ ext = b) →
        Client.check_runtime_hash c = .error .NoMatchingRuntimeIsolateHash)) := by
  have hall : ∀ p : Platform, p ∈ Client.platforms := by
    intro p
    cases p <;> simp [Client.platforms]
  constructor
  · intro hnone
    unfold Client.check_runtime_hash
    rw [hcerts]
    simp [hnone]
  · intro ext hsome
    have hck : Client.check_runtime_hash c = Client.compare_runtime_hash c ext := by
      unfold Client.check_runtime_hash
      rw [hcerts]
      simp [hsome]
    constructor
    · rw [hck]
      unfold Client.compare_runtime_hash
      rw [compareLoop_ok_iff c.policy ext Client.platforms
        (fun p _ s hs => hhex p s hs)]
      constructor
      · rintro ⟨p, _, s, b, h1, h2, h3⟩
        exact ⟨p, s, b, h1, h2, h3⟩
      · rintro ⟨p, s, b, h1, h2, h3⟩
        exact ⟨p, hall p, s, b, h1, h2, h3⟩
    · intro hno
      rw [hck]
      unfold Client.compare_runtime_hash
      apply compareLoop_no_match _ _ _ (fun p _ s hs => hhex p s hs)
      intro p _ s b hs hb hrb
      exact hno ⟨p, s, b, hs, hb, hrb⟩

/-- Witness for C2: the concrete client `cHappy` carries the extension
bytes matching the Linux hash and is accepted. -/
theorem C2_runtime_hash_verifier_witness :
    Client.check_runtime_hash cHappy = .ok () :=
  (((C2_runtime_hash_verifier cHappy { ues := [(encodedExtensionId, [171])] }
      rfl (by
        intro p s hs
        cases p
        · injection hs with h
          subst h
          decide
        · exact Option.noConfusion hs
        · exact Option.noConfusion hs)).2
    [171] (by decide)).1).mpr ⟨.Linux, "ab", [171], rfl, by decide, rfl⟩

/-- Claim C3: when the locally computed policy hash differs from the hash
returned by a successful policy-hash probe, every data-plane operation
fails with `MismatchError` whose variable field is `"check_policy_hash"`,
whose expected field is the local hash bytes and whose received field is
the remote hash bytes, and after the probe no further message is written
to the TLS channel. -/
theorem C3_policy_hash_mismatch (env : ClientEnv) (c : Client) (op : DataOp)
    (resp : RMResponse) (received : String)
    (hresp : env.respond .requestPolicyHash = .ok resp)
    (hstatus : resp.status = .SUCCESS)
    (hdecode : bytesStr? resp.policy_hash = some received)
    (hne : c.policy_hash ≠ received) :
    (runDataOp env c op).1 =
      .error (.MismatchError "check_policy_hash" (strBytes c.policy_hash)
        resp.policy_hash) ∧
    (runDataOp env c op).2 = [Event.sent RMRequest.requestPolicyHash] := by
  have hcp := check_policy_hash_mismatch env c resp received hresp hstatus
    hdecode hne
  rw [bytesStr_roundtrip resp.policy_hash received hdecode] at hcp
  have h := runDataOp_policy_error env c op
    (.MismatchError "check_policy_hash" (strBytes c.policy_hash)
      resp.policy_hash) (by rw [hcp])
  rw [h]
  exact ⟨rfl, rfl⟩

/-- Witness for C3: a concrete relay reporting hash `"cd"` against local
hash `"ab"`. -/
theorem C3_policy_hash_mismatch_witness :
    (runDataOp envMismatch cHappy (.dataOp "d" [1])).1 =
      .error (.MismatchError "check_policy_hash" (strBytes cHappy.policy_hash)
        [99, 100]) ∧
    (runDataOp envMismatch cHappy (.dataOp "d" [1])).2 =
      [Event.sent RMRequest.requestPolicyHash] :=
  C3_policy_hash_mismatch envMismatch cHappy (.dataOp "d" [1])
    { status := .SUCCESS, policy_hash := [99, 100], result := none } "cd"
    rfl rfl (by decide) (by decide)

/-- Claim C8: every path carried by a message that a data-plane operation
writes to the TLS channel begins with exactly one leading slash, whatever
the argument path looked like. -/
theorem C8_wire_path_single_slash (env : ClientEnv) (c : Client) (op : DataOp)
    (ev : Event) (hev : ev ∈ (runDataOp env c op).2) (req : RMRequest)
    (hreq : ev = .sent req) (p : String) (hp : pathOf req = some p) :
    leadingSlashes p = 1 := by
  subst hreq
  rcases hcp : (Client.check_policy_hash env c).1 with e | u
  · rw [runDataOp_policy_error env c op e hcp] at hev
    simp only [List.mem_singleton, Event.sent.injEq] at hev
    subst hev
    exact Option.noConfusion hp
  · cases u
    rcases hrt : Client.check_runtime_hash c with e | u2
    · rw [runDataOp_runtime_error env c op e hcp hrt] at hev
      simp only [List.mem_singleton, Event.sent.injEq] at hev
      subst hev
      exact Option.noConfusion hp
    · cases u2
      rw [runDataOp_checks_ok_trace env c op hcp hrt] at hev
      rcases List.mem_cons.mp hev with h | h
      · cases h
        exact Option.noConfusion hp
      · simp only [List.mem_singleton, Event.sent.injEq] at h
        subst h
        cases op <;>
          · cases hp
            exact leadingSlashes_enforce _

/-- Witness for C8: the wire path of a successful `send_data` on the
slash-less argument `"d"` is `"/d"`, with exactly one leading slash. -/
theorem C8_wire_path_single_slash_witness : leadingSlashes "/d" = 1 :=
  C8_wire_path_single_slash envHappy cHappy (.dataOp "d" [1])
    (.sent (.sendData "/d" [1])) (by decide) (.sendData "/d" [1]) rfl
    "/d" rfl

/-- Claim C10: `read_cert` returns the parsed certificate list exactly when
it holds one certificate and fails with `InvalidLengthError("cert_vec", 1)`
for any other count, so client construction fails on a PEM file parsing to
zero or several certificates. -/
theorem C10_read_cert_exactly_one (certs : List Bytes) (env : ConstructEnv)
    (policy : Policy) (ph : String) (pcs : List PeerCert)
    (hn : certs.length ≠ 1) (henv : env.client_cert_pem = .ok certs) :
    (∀ q cs, read_cert q = .ok cs ↔ (q = .ok cs ∧ cs.length = 1)) ∧
    read_cert (.ok certs) = .error (.InvalidLengthError "cert_vec" 1) ∧
    with_policy_and_hash env policy ph pcs =
      .error (.InvalidLengthError "cert_vec" 1) := by
  have hrc : read_cert (.ok certs) = .error (.InvalidLengthError "cert_vec" 1) := by
    unfold read_cert
    dsimp only
    rw [if_neg hn]
  refine ⟨?_, hrc, ?_⟩
  · intro q cs
    unfold read_cert
    rcases q with e | l
    · simp
    · dsimp only
      by_cases h : l.length = 1
      · rw [if_pos h]
        constructor
        · intro h'
          cases h'
          exact ⟨rfl, h⟩
        · rintro ⟨h1, _⟩
          cases h1
          rfl
      · rw [if_neg h]
        constructor
        · intro h'
          exact Except.noConfusion h'
        · rintro ⟨h1, h2⟩
          cases h1
          exact absurd h2 h
  · unfold with_policy_and_hash
    rw [henv, hrc]

/-- Witness for C10: a PEM parsing to zero certificates makes both
`read_cert` and client construction fail with the length error. -/
theorem C10_read_cert_exactly_one_witness :
    read_cert (.ok ([] : List Bytes)) =
      .error (.InvalidLengthError "cert_vec" 1) ∧
    with_policy_and_hash cenvNoCert { runtime_manager_hash := fun _ => none }
      "h" [] = .error (.InvalidLengthError "cert_vec" 1) := by
  have h := C10_read_cert_exactly_one [] cenvNoCert
    { runtime_manager_hash := fun _ => none } "h" [] (by decide) rfl
  exact ⟨h.2.1, h.2.2⟩
